import Mathlib

/-
Verification development for the rns plugin manager
(src/lib/pman.rs together with the Lua command text it emits).

The embedding models the two pieces of state the source manipulates:

- the Rust statics CURRENT_PLUGIN and PLUGIN_CONFIG (the single
  transaction slot), modelled as two Option String fields;
- the Lua global table _G.plugins built up by the generated commands,
  modelled as an association list from plugin name to a record with the
  fields the Lua code stores (url, enabled, config, path).  The table is
  nil until register_plugin first creates it, hence Option Registry.

C-string arguments are modelled as Option String: none stands for a null
pointer, on which extract_c_string fails and the operation returns 0.
The external command executor (do_cmdline_cmd behind run_cmd) is modelled
by a Bool parameter execOk: when it is false the command has no effect
and the operation returns 0, mirroring run_cmd returning Err.
-/

/-- Record stored under a name in the Lua table _G.plugins. -/
structure PluginRec where
  url : String
  enabled : Bool
  config : Option String
  path : Option String
deriving DecidableEq, Repr

/-- The Lua table _G.plugins, keyed by plugin name. -/
abbrev Registry := List (String × PluginRec)

/-- Lua table read _G.plugins[n]. -/
def getEntry : Registry → String → Option PluginRec
  | [], _ => none
  | e :: rest, n => if e.1 == n then some e.2 else getEntry rest n

/-- Lua table write _G.plugins[n] = p: replaces the entry for the key, or
inserts it when absent. -/
def setEntry : Registry → String → PluginRec → Registry
  | [], n, p => [(n, p)]
  | e :: rest, n, p => if e.1 == n then (n, p) :: rest else e :: setEntry rest n p

/-- Effect of the configure_plugin command: if the entry exists, set its
config field to the given text; otherwise leave the table unchanged. -/
def updateConfig : Registry → String → String → Registry
  | [], _, _ => []
  | e :: rest, n, c =>
    if e.1 == n then (e.1, ⟨e.2.url, e.2.enabled, some c, e.2.path⟩) :: rest
    else e :: updateConfig rest n c

/-- State touched by the Rust side: the transaction slot statics and the
Lua-side plugin table (none while _G.plugins is still nil). -/
structure PmanState where
  currentPlugin : Option String
  pluginConfig : Option String
  plugins : Option Registry
deriving DecidableEq, Repr

/-- register_plugin: on valid strings and a successful command, lazily
creates the table and stores a fresh record with the new url,
enabled = true and no config or path fields. -/
def register_plugin (execOk : Bool) (name url : Option String) (st : PmanState) :
    PmanState × Int :=
  match name with
  | none => (st, 0)
  | some n =>
    match url with
    | none => (st, 0)
    | some u =>
      if execOk then
        (⟨st.currentPlugin, st.pluginConfig,
          some (setEntry (st.plugins.getD []) n ⟨u, true, none, none⟩)⟩, 1)
      else (st, 0)

/-- configure_plugin: the emitted Lua guards with
if _G.plugins and _G.plugins[name] then ... end, so a missing table or a
missing entry leaves everything unchanged while the command still
succeeds and the function returns 1. -/
def configure_plugin (execOk : Bool) (name config : Option String) (st : PmanState) :
    PmanState × Int :=
  match name with
  | none => (st, 0)
  | some n =>
    match config with
    | none => (st, 0)
    | some c =>
      if execOk then
        (⟨st.currentPlugin, st.pluginConfig,
          st.plugins.map (fun reg => updateConfig reg n c)⟩, 1)
      else (st, 0)

/-- plugin_config_begin: on any extracted name it overwrites both statics
with the new target and an empty buffer; only a null pointer fails. -/
def plugin_config_begin (pluginName : Option String) (st : PmanState) :
    PmanState × Int :=
  match pluginName with
  | some n => (⟨some n, some "", st.plugins⟩, 1)
  | none => (st, 0)

/-- plugin_config_end: when both statics are set, commits the buffer via
configure_plugin, then unconditionally clears both statics and returns
the commit result; otherwise fails without touching anything. -/
def plugin_config_end (execOk : Bool) (st : PmanState) : PmanState × Int :=
  match st.currentPlugin, st.pluginConfig with
  | some p, some c =>
    let r := configure_plugin execOk (some p) (some c) st
    (⟨none, none, r.1.plugins⟩, r.2)
  | some _, none => (st, 0)
  | none, _ => (st, 0)

/-- Statement text appended by plugin_config_add_server. -/
def serverStmt (s : String) : String :=
  "require(\x27lspconfig\x27)." ++ s ++ ".setup(\x7b\x7d);\n"

/-- Statement text appended by plugin_config_set_server_option. -/
def optionStmt (s o v : String) : String :=
  "require(\x27lspconfig\x27)." ++ s ++ ".setup(\x7b settings = \x7b [\x27" ++ s ++
    "\x27] = \x7b " ++ o ++ " = \x27" ++ v ++ "\x27 \x7d \x7d \x7d);\n"

/-- Statement text appended by plugin_config_set_mapping. -/
def mappingStmt (p m k a : String) : String :=
  "require(\x27" ++ p ++ "\x27).setup(\x7b defaults = \x7b mappings = \x7b " ++ m ++
    " = \x7b [\x27" ++ k ++ "\x27] = \x27" ++ a ++ "\x27 \x7d \x7d \x7d \x7d);\n"

/-- Statement text appended by plugin_config_add_keymap. -/
def keymapStmt (m k c : String) : String :=
  "vim.keymap.set(\x27" ++ m ++ "\x27, \x27" ++ k ++ "\x27, \x27<cmd>Telescope " ++
    c ++ "<CR>\x27);\n"

/-- plugin_config_add_server: appends one lspconfig setup statement to the
open buffer; fails without effect when the buffer static is unset. -/
def plugin_config_add_server (serverName : Option String) (st : PmanState) :
    PmanState × Int :=
  match serverName with
  | none => (st, 0)
  | some s =>
    match st.pluginConfig with
    | some c => (⟨st.currentPlugin, some (c ++ serverStmt s), st.plugins⟩, 1)
    | none => (st, 0)

/-- plugin_config_set_server_option: appends one settings statement to the
open buffer; fails without effect when the buffer static is unset. -/
def plugin_config_set_server_option (server option value : Option String)
    (st : PmanState) : PmanState × Int :=
  match server, option, value with
  | some s, some o, some v =>
    match st.pluginConfig with
    | some c => (⟨st.currentPlugin, some (c ++ optionStmt s o v), st.plugins⟩, 1)
    | none => (st, 0)
  | _, _, _ => (st, 0)

/-- plugin_config_set_mapping: appends one mappings statement to the open
buffer; fails without effect when the buffer static is unset. -/
def plugin_config_set_mapping (plugin mode key action : Option String)
    (st : PmanState) : PmanState × Int :=
  match plugin, mode, key, action with
  | some p, some m, some k, some a =>
    match st.pluginConfig with
    | some c => (⟨st.currentPlugin, some (c ++ mappingStmt p m k a), st.plugins⟩, 1)
    | none => (st, 0)
  | _, _, _, _ => (st, 0)

/-- plugin_config_add_keymap: appends one vim.keymap.set statement to the
open buffer (the plugin argument is unused in the source); fails without
effect when the buffer static is unset. -/
def plugin_config_add_keymap (mode key plugin command : Option String)
    (st : PmanState) : PmanState × Int :=
  match mode, key, plugin, command with
  | some m, some k, some _, some c0 =>
    match st.pluginConfig with
    | some c => (⟨st.currentPlugin, some (c ++ keymapStmt m k c0), st.plugins⟩, 1)
    | none => (st, 0)
  | _, _, _, _ => (st, 0)

/-
Install and update.  The emitted Lua walks _G.plugins; for install it
clones each enabled plugin into plugin_dir .. name unless that directory
already exists, and unconditionally records plugin.path; for update it
runs a fast-forward-only pull for each enabled plugin whose directory
exists.  The filesystem is modelled as the list of existing directories;
git clone is modelled through a per-plugin success oracle cloneOk, a
successful clone creating the target directory (the Lua ignores the exit
status of the git processes themselves).  Both scripts end by re-running
the host plugin-load pass, which has no modelled state.
-/

/-- Directories currently present on disk. -/
structure FS where
  dirs : List String
deriving DecidableEq, Repr

/-- Lua isdirectory check. -/
def FS.hasDir (fs : FS) (d : String) : Bool := fs.dirs.contains d

/-- Lua mkdir: creates the directory when absent. -/
def FS.mkdir (fs : FS) (d : String) : FS :=
  if fs.hasDir d then fs else ⟨d :: fs.dirs⟩

/-- Effect of the git clone call: when the clone succeeds for this plugin
it creates the target directory, otherwise the filesystem is unchanged. -/
def gitClone (cloneOk : String → Bool) (fs : FS) (name path : String) : FS :=
  if cloneOk name then fs.mkdir path else fs

/-- The per-plugin directory root data_dir .. slash site/pack/managed/start. -/
def pluginDirOf (dataDir : String) : String :=
  dataDir ++ "/site/pack/managed/start/"

/-- Loop body of the install_plugins Lua: per enabled plugin, clone when
the directory is missing and record plugin.path; returns the final
filesystem, the rewritten table and the names cloned, in order. -/
def installLoop (cloneOk : String → Bool) (dir : String) (fs : FS) :
    Registry → FS × Registry × List String
  | [] => (fs, [], [])
  | (name, p) :: rest =>
    if p.enabled then
      if fs.hasDir (dir ++ name) then
        let r := installLoop cloneOk dir fs rest
        (r.1, (name, ⟨p.url, p.enabled, p.config, some (dir ++ name)⟩) :: r.2.1, r.2.2)
      else
        let fs1 := gitClone cloneOk fs name (dir ++ name)
        let r := installLoop cloneOk dir fs1 rest
        (r.1, (name, ⟨p.url, p.enabled, p.config, some (dir ++ name)⟩) :: r.2.1,
          name :: r.2.2)
    else
      let r := installLoop cloneOk dir fs rest
      (r.1, (name, p) :: r.2.1, r.2.2)

/-- install_plugins: returns immediately when _G.plugins is nil, else
creates the pack root and runs the loop; the script itself never raises,
so a successful command execution always returns 1.  The third component
lists the plugins cloned by this call. -/
def install_plugins (execOk : Bool) (cloneOk : String → Bool) (dataDir : String)
    (st : PmanState) (fs : FS) : PmanState × FS × List String × Int :=
  if execOk then
    match st.plugins with
    | none => (st, fs, [], 1)
    | some reg =>
      let fs0 := fs.mkdir (pluginDirOf dataDir)
      let r := installLoop cloneOk (pluginDirOf dataDir) fs0 reg
      (⟨st.currentPlugin, st.pluginConfig, some r.2.1⟩, r.1, r.2.2, 1)
  else (st, fs, [], 0)

/-- Loop body of the update_plugins Lua: pulls fast-forward-only exactly
for enabled plugins whose directory exists; the table and filesystem are
not modified. -/
def updateLoop (dir : String) (fs : FS) : Registry → List String
  | [] => []
  | (name, p) :: rest =>
    if p.enabled && fs.hasDir (dir ++ name) then name :: updateLoop dir fs rest
    else updateLoop dir fs rest

/-- update_plugins: returns immediately when _G.plugins is nil; the list
names the plugins pulled by this call. -/
def update_plugins (execOk : Bool) (dataDir : String) (st : PmanState) (fs : FS) :
    List String × Int :=
  if execOk then
    match st.plugins with
    | none => ([], 1)
    | some reg => (updateLoop (pluginDirOf dataDir) fs reg, 1)
  else ([], 0)

/-
Apply (load_plugin_configs).  The emitted Lua is, per enabled plugin with
a stored config:

  first attempt, inside pcall: require(name); on success loadstring the
  config and run the chunk, raising on a parse failure or a chunk error,
  and raising when require failed;

  on first-attempt failure, vim.schedule exactly one retry closure: it
  pcalls require(name) again, and only when that succeeds loadstrings
  and, when parsing succeeds, runs the chunk.  The retry closure raises
  only when the chunk itself raises; a failed require or a failed parse
  falls through silently.  A warning naming the plugin is emitted exactly
  when the retry closure raised.

The host oracles: requireOk1 and requireOk2 give the outcome of require
for a module name on the first attempt and on the deferred retry tick,
parseOk the (deterministic) outcome of loadstring on a config text, and
chunkOk1 and chunkOk2 the outcome of executing the chunk for a plugin on
each tick.
-/

/-- Host-behaviour oracles for load_plugin_configs. -/
structure ApplyEnv where
  requireOk1 : String → Bool
  requireOk2 : String → Bool
  parseOk : String → Bool
  chunkOk1 : String → Bool
  chunkOk2 : String → Bool

/-- Success of the first, immediate attempt: module loaded, config parsed
and chunk executed without raising. -/
def firstAttemptOk (env : ApplyEnv) (name cfg : String) : Bool :=
  env.requireOk1 name && env.parseOk cfg && env.chunkOk1 name

/-- Whether the retry closure raises: only a chunk error surfaces there;
a failed require or a failed parse is swallowed by the if-chains. -/
def retryRaises (env : ApplyEnv) (name cfg : String) : Bool :=
  env.requireOk2 name && env.parseOk cfg && !env.chunkOk2 name

/-- Per-plugin body of load_plugin_configs: number of deferred retries
scheduled (0 or 1) and the warnings emitted for this plugin, as the list
of plugin names appearing in the notify text. -/
def applyPlugin (env : ApplyEnv) (name : String) (p : PluginRec) : Nat × List String :=
  match p.config with
  | none => (0, [])
  | some cfg =>
    if p.enabled then
      if firstAttemptOk env name cfg then (0, [])
      else (1, if retryRaises env name cfg then [name] else [])
    else (0, [])

/-- Fold of applyPlugin over the table, accumulating scheduled retries and
warnings in iteration order. -/
def applyAllLoop (env : ApplyEnv) : Registry → Nat × List String
  | [] => (0, [])
  | (name, p) :: rest =>
    let a := applyPlugin env name p
    let b := applyAllLoop env rest
    (a.1 + b.1, a.2 ++ b.2)

/-- load_plugin_configs: returns immediately when _G.plugins is nil; the
script never raises, so a successful command execution returns 1.  The
result carries the total retries scheduled and all warnings emitted. -/
def load_plugin_configs (execOk : Bool) (env : ApplyEnv) (st : PmanState) :
    Nat × List String × Int :=
  if execOk then
    match st.plugins with
    | none => (0, [], 1)
    | some reg =>
      let r := applyAllLoop env reg
      (r.1, r.2, 1)
  else (0, [], 0)

/-- Looking up the key just written returns the written record. -/
theorem getEntry_setEntry_self (reg : Registry) (n : String) (p : PluginRec) :
    getEntry (setEntry reg n p) n = some p := by
  induction reg with
  | nil => simp [setEntry, getEntry]
  | cons e rest ih =>
    by_cases h : e.1 = n
    · simp [setEntry, h, getEntry]
    · simp only [setEntry, beq_iff_eq, h, if_false, getEntry]
      simp [h, ih]

/-- Writing one key leaves lookups of every other key unchanged. -/
theorem getEntry_setEntry_ne (reg : Registry) (n m : String) (p : PluginRec)
    (h : m ≠ n) : getEntry (setEntry reg n p) m = getEntry reg m := by
  induction reg with
  | nil =>
    simp [setEntry, getEntry, Ne.symm h]
  | cons e rest ih =>
    by_cases h1 : e.1 = n
    · simp [setEntry, h1, getEntry, Ne.symm h]
    · simp [setEntry, h1, getEntry, ih]

/-- Setting the config of a present entry rewrites exactly that field. -/
theorem getEntry_updateConfig_self (reg : Registry) (n c : String) (q : PluginRec)
    (h : getEntry reg n = some q) :
    getEntry (updateConfig reg n c) n = some ⟨q.url, q.enabled, some c, q.path⟩ := by
  induction reg with
  | nil => simp [getEntry] at h
  | cons e rest ih =>
    by_cases h1 : e.1 = n
    · simp [getEntry, h1] at h
      subst h
      simp [updateConfig, h1, getEntry]
    · simp [getEntry, h1] at h
      simp [updateConfig, h1, getEntry, ih h]

/-- Directory membership characterisation of hasDir. -/
theorem hasDir_iff_mem (fs : FS) (d : String) : fs.hasDir d = true ↔ d ∈ fs.dirs := by
  simp [FS.hasDir]

/-- Negative characterisation of hasDir. -/
theorem hasDir_false_iff (fs : FS) (d : String) :
    fs.hasDir d = false ↔ d ∉ fs.dirs := by
  rw [← hasDir_iff_mem]
  cases fs.hasDir d <;> simp

/-- mkdir creates its directory. -/
theorem hasDir_mkdir_self (fs : FS) (d : String) : (fs.mkdir d).hasDir d = true := by
  unfold FS.mkdir
  split
  · assumption
  · simp [hasDir_iff_mem]

/-- mkdir preserves existing directories. -/
theorem hasDir_mkdir_mono (fs : FS) (d e : String) (h : fs.hasDir d = true) :
    (fs.mkdir e).hasDir d = true := by
  unfold FS.mkdir
  split
  · exact h
  · rw [hasDir_iff_mem] at h ⊢
    exact List.mem_cons_of_mem _ h

/-- mkdir of a different directory creates no others. -/
theorem hasDir_mkdir_ne (fs : FS) (d e : String) (h1 : fs.hasDir d = false)
    (h2 : d ≠ e) : (fs.mkdir e).hasDir d = false := by
  unfold FS.mkdir
  split
  · exact h1
  · rw [hasDir_false_iff] at h1 ⊢
    simp [h2, h1]

/-- A directory present before a clone is present after it. -/
theorem hasDir_gitClone_mono (ck : String → Bool) (fs : FS) (n p d : String)
    (h : fs.hasDir d = true) : (gitClone ck fs n p).hasDir d = true := by
  unfold gitClone
  split
  · exact hasDir_mkdir_mono fs d p h
  · exact h

/-- A clone targeting a different path creates no other directory. -/
theorem hasDir_gitClone_ne (ck : String → Bool) (fs : FS) (n p d : String)
    (h1 : fs.hasDir d = false) (h2 : d ≠ p) :
    (gitClone ck fs n p).hasDir d = false := by
  unfold gitClone
  split
  · exact hasDir_mkdir_ne fs d p h1 h2
  · exact h1

/-- Appending to the same string on the left is injective. -/
theorem string_append_ne (dir : String) {m n : String} (h : m ≠ n) :
    dir ++ m ≠ dir ++ n := by
  intro hc
  apply h
  have h2 : dir.data ++ m.data = dir.data ++ n.data := by
    have h3 := congrArg String.data hc
    simpa using h3
  exact String.ext (List.append_cancel_left h2)

/-- The install loop only ever creates directories. -/
theorem installLoop_fs_mono (ck : String → Bool) (dir : String) :
    ∀ (reg : Registry) (fs : FS) (d : String), fs.hasDir d = true →
      (installLoop ck dir fs reg).1.hasDir d = true := by
  intro reg
  induction reg with
  | nil => intro fs d h; simpa [installLoop] using h
  | cons e rest ih =>
    intro fs d h
    obtain ⟨name, p⟩ := e
    by_cases hp : p.enabled
    · by_cases hd : fs.hasDir (dir ++ name)
      · simpa [installLoop, hp, hd] using ih fs d h
      · simpa [installLoop, hp, hd] using
          ih (gitClone ck fs name (dir ++ name)) d
            (hasDir_gitClone_mono ck fs name (dir ++ name) d h)
    · simpa [installLoop, hp] using ih fs d h

/-- The table written back by the install loop: every enabled entry gets
its path recorded, independent of filesystem state and clone outcomes. -/
theorem installLoop_reg_shape (ck : String → Bool) (dir : String) :
    ∀ (reg : Registry) (fs : FS),
      (installLoop ck dir fs reg).2.1 =
        reg.map (fun e =>
          if e.2.enabled then (e.1, ⟨e.2.url, e.2.enabled, e.2.config, some (dir ++ e.1)⟩)
          else e) := by
  intro reg
  induction reg with
  | nil => intro fs; simp [installLoop]
  | cons e rest ih =>
    intro fs
    obtain ⟨name, p⟩ := e
    by_cases hp : p.enabled
    · by_cases hd : fs.hasDir (dir ++ name)
      · simp [installLoop, hp, hd, ih]
      · simp [installLoop, hp, hd, ih]
    · simp [installLoop, hp, ih]

/-- When every clone succeeds, after the install loop every enabled
plugin of the walked table has its directory present. -/
theorem installLoop_installs (ck : String → Bool) (dir : String)
    (hck : ∀ n, ck n = true) :
    ∀ (reg : Registry) (fs : FS) (n : String) (p : PluginRec),
      (n, p) ∈ reg → p.enabled = true →
      (installLoop ck dir fs reg).1.hasDir (dir ++ n) = true := by
  intro reg
  induction reg with
  | nil => intro fs n p hmem; cases hmem
  | cons e rest ih =>
    intro fs n p hmem hp
    obtain ⟨name, q⟩ := e
    rcases List.mem_cons.mp hmem with hhead | htail
    · injection hhead with h1 h2
      subst h1; subst h2
      by_cases hd : fs.hasDir (dir ++ n)
      · simpa [installLoop, hp, hd] using installLoop_fs_mono ck dir rest fs (dir ++ n) hd
      · have hclone : (gitClone ck fs n (dir ++ n)).hasDir (dir ++ n) = true := by
          unfold gitClone
          rw [hck n]
          simp [hasDir_mkdir_self]
        simpa [installLoop, hp, hd] using
          installLoop_fs_mono ck dir rest (gitClone ck fs n (dir ++ n)) (dir ++ n) hclone
    · by_cases hq : q.enabled
      · by_cases hd : fs.hasDir (dir ++ name)
        · simpa [installLoop, hq, hd] using ih fs n p htail hp
        · simpa [installLoop, hq, hd] using
            ih (gitClone ck fs name (dir ++ name)) n p htail hp
      · simpa [installLoop, hq] using ih fs n p htail hp

/-- When every enabled plugin of the walked table already has its
directory, the install loop clones nothing. -/
theorem installLoop_skips (ck : String → Bool) (dir : String) :
    ∀ (reg : Registry) (fs : FS),
      (∀ n p, (n, p) ∈ reg → p.enabled = true → fs.hasDir (dir ++ n) = true) →
      (installLoop ck dir fs reg).2.2 = [] := by
  intro reg
  induction reg with
  | nil => intro fs h; simp [installLoop]
  | cons e rest ih =>
    intro fs h
    obtain ⟨name, p⟩ := e
    by_cases hp : p.enabled
    · have hd : fs.hasDir (dir ++ name) = true :=
        h name p (List.mem_cons_self ..) hp
      simpa [installLoop, hp, hd] using
        ih fs (fun n q hmem hq => h n q (List.mem_cons_of_mem _ hmem) hq)
    · simpa [installLoop, hp] using
        ih fs (fun n q hmem hq => h n q (List.mem_cons_of_mem _ hmem) hq)

/-- A plugin whose directory already exists is never cloned by the
install loop. -/
theorem installLoop_not_cloned (ck : String → Bool) (dir : String) :
    ∀ (reg : Registry) (fs : FS) (n : String), fs.hasDir (dir ++ n) = true →
      n ∉ (installLoop ck dir fs reg).2.2 := by
  intro reg
  induction reg with
  | nil => intro fs n h; simp [installLoop]
  | cons e rest ih =>
    intro fs n h
    obtain ⟨name, q⟩ := e
    by_cases hq : q.enabled
    · by_cases hd : fs.hasDir (dir ++ name)
      · simpa [installLoop, hq, hd] using ih fs n h
      · have hne : name ≠ n := by
          intro hc
          rw [hc] at hd
          exact absurd h (by simp [hd])
        have h2 : (gitClone ck fs name (dir ++ name)).hasDir (dir ++ n) = true :=
          hasDir_gitClone_mono ck fs name (dir ++ name) (dir ++ n) h
        simp only [installLoop, hq, hd, if_true, if_false, Bool.false_eq_true]
        simp only [List.mem_cons, not_or]
        exact ⟨Ne.symm hne, ih (gitClone ck fs name (dir ++ name)) n h2⟩
    · simpa [installLoop, hq] using ih fs n h

/-- The clone list of the install loop is a sublist of the table keys, in
iteration order: no entry can be cloned more often than it occurs. -/
theorem installLoop_ops_sublist (ck : String → Bool) (dir : String) :
    ∀ (reg : Registry) (fs : FS),
      List.Sublist (installLoop ck dir fs reg).2.2 (reg.map Prod.fst) := by
  intro reg
  induction reg with
  | nil => intro fs; simp [installLoop]
  | cons e rest ih =>
    intro fs
    obtain ⟨name, p⟩ := e
    by_cases hp : p.enabled
    · by_cases hd : fs.hasDir (dir ++ name)
      · simpa [installLoop, hp, hd] using List.Sublist.cons name (ih fs)
      · simpa [installLoop, hp, hd] using
          List.Sublist.cons₂ name (ih (gitClone ck fs name (dir ++ name)))
    · simpa [installLoop, hp] using List.Sublist.cons name (ih fs)

/-- With distinct keys, an enabled plugin whose directory is missing does
get cloned by the install loop. -/
theorem installLoop_cloned_mem (ck : String → Bool) (dir : String) :
    ∀ (reg : Registry) (fs : FS) (n : String) (p : PluginRec),
      (n, p) ∈ reg → p.enabled = true → (reg.map Prod.fst).Nodup →
      fs.hasDir (dir ++ n) = false →
      n ∈ (installLoop ck dir fs reg).2.2 := by
  intro reg
  induction reg with
  | nil => intro fs n p hmem; cases hmem
  | cons e rest ih =>
    intro fs n p hmem hp hnd hd
    obtain ⟨name, q⟩ := e
    rcases List.mem_cons.mp hmem with hhead | htail
    · injection hhead with h1 h2
      subst h1; subst h2
      simp [installLoop, hp, hd]
    · have hnr : n ∈ rest.map Prod.fst := List.mem_map_of_mem Prod.fst htail
      have hne : name ≠ n := by
        intro hc
        subst hc
        exact (List.nodup_cons.mp (by simpa using hnd)).1 hnr
      have hnd2 : (rest.map Prod.fst).Nodup := (List.nodup_cons.mp (by simpa using hnd)).2
      by_cases hq : q.enabled
      · by_cases hdm : fs.hasDir (dir ++ name)
        · simpa [installLoop, hq, hdm] using ih fs n p htail hp hnd2 hd
        · have hd2 : (gitClone ck fs name (dir ++ name)).hasDir (dir ++ n) = false :=
            hasDir_gitClone_ne ck fs name (dir ++ name) (dir ++ n) hd
              (Ne.symm (string_append_ne dir hne))
          have := ih (gitClone ck fs name (dir ++ name)) n p htail hp hnd2 hd2
          simp [installLoop, hq, hdm]
          right
          exact this
      · simpa [installLoop, hq] using ih fs n p htail hp hnd2 hd

/-- A plugin whose directory does not exist is never pulled by the update
loop. -/
theorem updateLoop_not_mem (dir : String) (fs : FS) (n : String)
    (h : fs.hasDir (dir ++ n) = false) :
    ∀ reg : Registry, n ∉ updateLoop dir fs reg := by
  intro reg
  induction reg with
  | nil => simp [updateLoop]
  | cons e rest ih =>
    obtain ⟨name, q⟩ := e
    by_cases hc : q.enabled && fs.hasDir (dir ++ name)
    · have hne : name ≠ n := by
        intro heq
        subst heq
        rw [h] at hc
        simp at hc
      simp only [updateLoop, hc, if_true, List.mem_cons, not_or]
      exact ⟨Ne.symm hne, ih⟩
    · simpa [updateLoop, hc] using ih

/-- Every plugin pulled by the update loop is an enabled table entry whose
directory exists. -/
theorem updateLoop_mem_enabled (dir : String) (fs : FS) :
    ∀ (reg : Registry) (n : String), n ∈ updateLoop dir fs reg →
      ∃ p, (n, p) ∈ reg ∧ p.enabled = true ∧ fs.hasDir (dir ++ n) = true := by
  intro reg
  induction reg with
  | nil => intro n h; simp [updateLoop] at h
  | cons e rest ih =>
    intro n h
    obtain ⟨name, q⟩ := e
    by_cases hc : q.enabled && fs.hasDir (dir ++ name)
    · simp only [updateLoop, hc, if_true, List.mem_cons] at h
      rcases h with h1 | h2
      · subst h1
        exact ⟨q, List.mem_cons_self .., (Bool.and_eq_true ..).mp hc |>.1,
          (Bool.and_eq_true ..).mp hc |>.2⟩
      · obtain ⟨p, hmem, hp, hd⟩ := ih n h2
        exact ⟨p, List.mem_cons_of_mem _ hmem, hp, hd⟩
    · simp only [updateLoop, hc, if_false] at h
      obtain ⟨p, hmem, hp, hd⟩ := ih n (by simpa using h)
      exact ⟨p, List.mem_cons_of_mem _ hmem, hp, hd⟩

/-- C4: while a transaction is open, plugin_config_begin for a new name
discards the prior buffer entirely, commits none of it to any plugin
(the table component is untouched), and opens a fresh empty buffer
scoped to the newly named plugin, returning success. -/
theorem begin_discards_open_transaction (st : PmanState) (p0 b n : String)
    (h1 : st.currentPlugin = some p0) (h2 : st.pluginConfig = some b) :
    plugin_config_begin (some n) st = (⟨some n, some "", st.plugins⟩, 1) := rfl

theorem begin_discards_open_transaction_witness :
    (⟨some "old", some "buffered", some []⟩ : PmanState).currentPlugin = some "old" ∧
    (⟨some "old", some "buffered", some []⟩ : PmanState).pluginConfig = some "buffered" ∧
    plugin_config_begin (some "new") (⟨some "old", some "buffered", some []⟩ : PmanState) =
      (⟨some "new", some "", some []⟩, 1) :=
  ⟨rfl, rfl, begin_discards_open_transaction ⟨some "old", some "buffered", some []⟩
    "old" "buffered" "new" rfl rfl⟩

/-- C5: with no open transaction (both statics unset), plugin_config_end
and every add operation return failure and leave the whole state
unchanged. -/
theorem no_transaction_ops_fail (st : PmanState)
    (h1 : st.currentPlugin = none) (h2 : st.pluginConfig = none) :
    ∀ (execOk : Bool) (s o v p m k a c : Option String),
      plugin_config_end execOk st = (st, 0) ∧
      plugin_config_add_server s st = (st, 0) ∧
      plugin_config_set_server_option s o v st = (st, 0) ∧
      plugin_config_set_mapping p m k a st = (st, 0) ∧
      plugin_config_add_keymap m k p c st = (st, 0) := by
  intro execOk s o v p m k a c
  obtain ⟨cp, pc, pl⟩ := st
  simp only [] at h1 h2
  subst h1
  subst h2
  refine ⟨rfl, ?_, ?_, ?_, ?_⟩
  · cases s <;> rfl
  · cases s <;> cases o <;> cases v <;> rfl
  · cases p <;> cases m <;> cases k <;> cases a <;> rfl
  · cases m <;> cases k <;> cases p <;> cases c <;> rfl

theorem no_transaction_ops_fail_witness :
    (⟨none, none, none⟩ : PmanState).currentPlugin = none ∧
    plugin_config_end true (⟨none, none, none⟩ : PmanState) = (⟨none, none, none⟩, 0) ∧
    plugin_config_add_server (some "pyright") (⟨none, none, none⟩ : PmanState) =
      (⟨none, none, none⟩, 0) := by
  have h := no_transaction_ops_fail ⟨none, none, none⟩ rfl rfl true
    (some "pyright") (some "o") (some "v") (some "p") (some "m") (some "k")
    (some "a") (some "c")
  exact ⟨rfl, h.1, h.2.1⟩

/-- C9 counterexample: plugin_config_begin called with the empty string
returns success (1) and opens a transaction scoped to the empty name,
contrary to the claim that it fails and opens nothing. -/
theorem begin_empty_name_succeeds :
    plugin_config_begin (some "") (⟨none, none, none⟩ : PmanState) =
      (⟨some "", some "", none⟩, 1) := rfl

/-- C9 amended: plugin_config_begin performs no emptiness check; it fails
only when string extraction fails (null pointer), and on every extracted
name, the empty string included, it returns success and opens a
transaction scoped to that name. -/
theorem begin_accepts_any_extracted_name (st : PmanState) (n : String) :
    plugin_config_begin (some n) st = (⟨some n, some "", st.plugins⟩, 1) ∧
    plugin_config_begin none st = (st, 0) :=
  ⟨rfl, rfl⟩

/-- C10: whenever a transaction is open, plugin_config_end clears both
statics before returning even when the commit command fails; on such a
failure the table is untouched, the call reports failure, and a
subsequent end cannot re-commit the discarded buffer (it is a failing
no-op on the cleared slot). -/
theorem end_clears_slot_even_on_failure (st : PmanState) (p c : String)
    (h1 : st.currentPlugin = some p) (h2 : st.pluginConfig = some c) (execOk : Bool) :
    (plugin_config_end execOk st).1.currentPlugin = none ∧
    (plugin_config_end execOk st).1.pluginConfig = none ∧
    (execOk = false → (plugin_config_end execOk st).1.plugins = st.plugins ∧
      (plugin_config_end execOk st).2 = 0) ∧
    (∀ execOk2 : Bool, plugin_config_end execOk2 (plugin_config_end execOk st).1 =
      ((plugin_config_end execOk st).1, 0)) := by
  obtain ⟨cp, pc, pl⟩ := st
  simp only [] at h1 h2
  subst h1
  subst h2
  cases execOk
  · exact ⟨rfl, rfl, fun _ => ⟨rfl, rfl⟩, fun e2 => rfl⟩
  · exact ⟨rfl, rfl, fun hc => Bool.noConfusion hc, fun e2 => rfl⟩

theorem end_clears_slot_even_on_failure_witness :
    (⟨some "lsp", some "cfg", some []⟩ : PmanState).currentPlugin = some "lsp" ∧
    (plugin_config_end false (⟨some "lsp", some "cfg", some []⟩ : PmanState)).1.pluginConfig
      = none ∧
    (plugin_config_end false (⟨some "lsp", some "cfg", some []⟩ : PmanState)).1.plugins
      = some [] ∧
    (plugin_config_end false (⟨some "lsp", some "cfg", some []⟩ : PmanState)).2 = 0 := by
  have h := end_clears_slot_even_on_failure ⟨some "lsp", some "cfg", some []⟩
    "lsp" "cfg" rfl rfl false
  exact ⟨rfl, h.2.1, (h.2.2.1 rfl).1, (h.2.2.1 rfl).2⟩

/-- C2 counterexample: re-registering a plugin that has a stored config
and install path replaces the whole record; the new record has url u2
and enabled true but its config and path are gone, contrary to the
claimed preservation of config and install_path. -/
theorem register_does_not_preserve_config :
    (register_plugin true (some "foo") (some "u2")
        (⟨none, none, some [("foo", ⟨"u1", false, some "c", some "p"⟩)]⟩ : PmanState)).1.plugins
      = some [("foo", ⟨"u2", true, none, none⟩)] ∧
    (register_plugin true (some "foo") (some "u2")
        (⟨none, none, some [("foo", ⟨"u1", false, some "c", some "p"⟩)]⟩ : PmanState)).1.plugins
      ≠ some [("foo", ⟨"u2", true, some "c", some "p"⟩)] := by
  constructor
  · decide
  · decide

/-- C2 amended: re-registering an existing plugin name overwrites the
whole record: the url is set to the new value and enabled to true, while
any existing config and install path are cleared (not preserved).  Other
entries and the transaction statics are untouched. -/
theorem register_overwrites_whole_record (st : PmanState) (reg : Registry)
    (n u : String) (q : PluginRec) (h1 : st.plugins = some reg)
    (h2 : getEntry reg n = some q) :
    (register_plugin true (some n) (some u) st).2 = 1 ∧
    (register_plugin true (some n) (some u) st).1.plugins =
      some (setEntry reg n ⟨u, true, none, none⟩) ∧
    getEntry (setEntry reg n ⟨u, true, none, none⟩) n = some ⟨u, true, none, none⟩ ∧
    (∀ m, m ≠ n → getEntry (setEntry reg n ⟨u, true, none, none⟩) m = getEntry reg m) ∧
    (register_plugin true (some n) (some u) st).1.currentPlugin = st.currentPlugin ∧
    (register_plugin true (some n) (some u) st).1.pluginConfig = st.pluginConfig := by
  obtain ⟨cp, pc, pl⟩ := st
  simp only [] at h1
  subst h1
  exact ⟨rfl, rfl, getEntry_setEntry_self reg n ⟨u, true, none, none⟩,
    fun m hm => getEntry_setEntry_ne reg n m ⟨u, true, none, none⟩ hm, rfl, rfl⟩

theorem register_overwrites_whole_record_witness :
    getEntry [("foo", (⟨"u1", false, some "c", some "p"⟩ : PluginRec))] "foo" =
      some ⟨"u1", false, some "c", some "p"⟩ ∧
    (register_plugin true (some "foo") (some "u2")
        (⟨none, none, some [("foo", ⟨"u1", false, some "c", some "p"⟩)]⟩ : PmanState)).1.plugins
      = some (setEntry [("foo", ⟨"u1", false, some "c", some "p"⟩)] "foo"
          ⟨"u2", true, none, none⟩) ∧
    getEntry (setEntry [("foo", (⟨"u1", false, some "c", some "p"⟩ : PluginRec))] "foo"
        ⟨"u2", true, none, none⟩) "foo" = some ⟨"u2", true, none, none⟩ := by
  have h := register_overwrites_whole_record
    ⟨none, none, some [("foo", ⟨"u1", false, some "c", some "p"⟩)]⟩
    [("foo", ⟨"u1", false, some "c", some "p"⟩)] "foo" "u2"
    ⟨"u1", false, some "c", some "p"⟩ rfl (by decide)
  exact ⟨by decide, h.2.1, h.2.2.1⟩

/-- C3: the code does not report NotFound.  configure_plugin on an
unregistered name executes a guarded Lua command that does nothing and
still returns success (1) with the state unchanged, and plugin_config_end
committing a buffer for an unregistered plugin likewise returns 1 and
changes no table entry: the silent no-op the spec flags as a gap. -/
theorem configure_missing_plugin_silent_noop :
    configure_plugin true (some "ghost") (some "cfg")
        (⟨none, none, some []⟩ : PmanState) = (⟨none, none, some []⟩, 1) ∧
    plugin_config_end true (⟨some "ghost", some "cfg", some []⟩ : PmanState) =
      (⟨none, none, some []⟩, 1) ∧
    configure_plugin true (some "ghost") (some "cfg")
        (⟨none, none, some [("real", ⟨"u", true, none, none⟩)]⟩ : PmanState) =
      (⟨none, none, some [("real", ⟨"u", true, none, none⟩)]⟩, 1) := by
  refine ⟨rfl, rfl, ?_⟩
  decide

/-- C6: each plugin_config_add_server call appends exactly one statement
of the shape require(lspconfig).server.setup with empty braces to the
open buffer, and the begin lsp, add_server, end sequence commits for the
registered target exactly that one statement as its config. -/
theorem add_server_appends_one_statement (st : PmanState) (reg : Registry)
    (p s : String) (q : PluginRec) (h1 : st.plugins = some reg)
    (h2 : getEntry reg p = some q) :
    (∀ (st2 : PmanState) (buf : String), st2.pluginConfig = some buf →
      plugin_config_add_server (some s) st2 =
        (⟨st2.currentPlugin, some (buf ++ serverStmt s), st2.plugins⟩, 1)) ∧
    plugin_config_end true (plugin_config_add_server (some s)
        (plugin_config_begin (some p) st).1).1 =
      (⟨none, none, some (updateConfig reg p (serverStmt s))⟩, 1) ∧
    getEntry (updateConfig reg p (serverStmt s)) p =
      some ⟨q.url, q.enabled, some (serverStmt s), q.path⟩ := by
  obtain ⟨cp, pc, pl⟩ := st
  simp only [] at h1
  subst h1
  refine ⟨?_, ?_, getEntry_updateConfig_self reg p (serverStmt s) q h2⟩
  · intro st2 buf hbuf
    obtain ⟨cp2, pc2, pl2⟩ := st2
    simp only [] at hbuf
    subst hbuf
    rfl
  · rfl

theorem add_server_appends_one_statement_witness :
    getEntry [("lsp", (⟨"u", true, none, none⟩ : PluginRec))] "lsp" =
      some ⟨"u", true, none, none⟩ ∧
    plugin_config_end true (plugin_config_add_server (some "pyright")
        (plugin_config_begin (some "lsp")
          (⟨none, none, some [("lsp", ⟨"u", true, none, none⟩)]⟩ : PmanState)).1).1 =
      (⟨none, none, some [("lsp", ⟨"u", true, some (serverStmt "pyright"), none⟩)]⟩, 1) ∧
    serverStmt "pyright" = "require(\x27lspconfig\x27).pyright.setup(\x7b\x7d);\n" := by
  have h := add_server_appends_one_statement
    ⟨none, none, some [("lsp", ⟨"u", true, none, none⟩)]⟩
    [("lsp", ⟨"u", true, none, none⟩)] "lsp" "pyright"
    ⟨"u", true, none, none⟩ rfl (by decide)
  refine ⟨by decide, ?_, rfl⟩
  rw [h.2.1]
  decide

/-- C8: update_plugins pulls fast-forward-only exactly the plugins that
are enabled entries with an existing per-plugin directory; a plugin whose
directory does not exist is never pulled, and the call reports success
regardless. -/
theorem update_skips_never_installed (dataDir : String) (st : PmanState)
    (fs : FS) (reg : Registry) (h : st.plugins = some reg) :
    (update_plugins true dataDir st fs).2 = 1 ∧
    (∀ n : String, fs.hasDir (pluginDirOf dataDir ++ n) = false →
      n ∉ (update_plugins true dataDir st fs).1) ∧
    (∀ n : String, n ∈ (update_plugins true dataDir st fs).1 →
      ∃ p, (n, p) ∈ reg ∧ p.enabled = true ∧
        fs.hasDir (pluginDirOf dataDir ++ n) = true) := by
  obtain ⟨cp, pc, pl⟩ := st
  simp only [] at h
  subst h
  refine ⟨rfl, ?_, ?_⟩
  · intro n hn
    simpa [update_plugins] using updateLoop_not_mem (pluginDirOf dataDir) fs n hn reg
  · intro n hn
    exact updateLoop_mem_enabled (pluginDirOf dataDir) fs reg n
      (by simpa [update_plugins] using hn)

theorem update_skips_never_installed_witness :
    (⟨none, none, some [("foo", ⟨"u", true, none, none⟩)]⟩ : PmanState).plugins =
      some [("foo", ⟨"u", true, none, none⟩)] ∧
    (update_plugins true "/data"
        (⟨none, none, some [("foo", ⟨"u", true, none, none⟩)]⟩ : PmanState) ⟨[]⟩).2 = 1 ∧
    "foo" ∉ (update_plugins true "/data"
        (⟨none, none, some [("foo", ⟨"u", true, none, none⟩)]⟩ : PmanState) ⟨[]⟩).1 := by
  have h := update_skips_never_installed "/data"
    ⟨none, none, some [("foo", ⟨"u", true, none, none⟩)]⟩ ⟨[]⟩
    [("foo", ⟨"u", true, none, none⟩)] rfl
  exact ⟨rfl, h.1, h.2.1 "foo" (by decide)⟩

/-- C7: install_plugins is idempotent when clones succeed — the first
call reports success and clones each enabled, not-yet-present plugin
exactly once; an enabled plugin whose directory already exists is not
cloned; and a second call straight after performs zero clone operations
and still reports success. -/
theorem install_plugins_idempotent (ck : String → Bool) (dataDir : String)
    (st : PmanState) (fs : FS) (hck : ∀ n, ck n = true) :
    (install_plugins true ck dataDir st fs).2.2.2 = 1 ∧
    (install_plugins true ck dataDir
        (install_plugins true ck dataDir st fs).1
        (install_plugins true ck dataDir st fs).2.1).2.2.1 = [] ∧
    (install_plugins true ck dataDir
        (install_plugins true ck dataDir st fs).1
        (install_plugins true ck dataDir st fs).2.1).2.2.2 = 1 ∧
    (∀ n : String, fs.hasDir (pluginDirOf dataDir ++ n) = true →
      n ∉ (install_plugins true ck dataDir st fs).2.2.1) ∧
    (∀ (reg : Registry) (n : String) (p : PluginRec), st.plugins = some reg →
      (reg.map Prod.fst).Nodup → (n, p) ∈ reg → p.enabled = true →
      (fs.mkdir (pluginDirOf dataDir)).hasDir (pluginDirOf dataDir ++ n) = false →
      (install_plugins true ck dataDir st fs).2.2.1.count n = 1) := by
  obtain ⟨cp, pc, pl⟩ := st
  cases pl with
  | none =>
    refine ⟨rfl, rfl, rfl, fun n _ => by simp [install_plugins], ?_⟩
    intro reg n p hpl
    exact absurd hpl (by simp)
  | some reg =>
    set dir := pluginDirOf dataDir with hdir
    set fs0 := fs.mkdir dir with hfs0
    set L := installLoop ck dir fs0 reg with hL
    have hcall1 : install_plugins true ck dataDir ⟨cp, pc, some reg⟩ fs =
        (⟨cp, pc, some L.2.1⟩, L.1, L.2.2, 1) := rfl
    have hshape := installLoop_reg_shape ck dir reg fs0
    have hops2 : (install_plugins true ck dataDir ⟨cp, pc, some L.2.1⟩ L.1).2.2.1 = [] := by
      have hall : ∀ n q, (n, q) ∈ L.2.1 → q.enabled = true →
          (L.1.mkdir dir).hasDir (dir ++ n) = true := by
        intro n q hmem hq
        rw [hshape] at hmem
        obtain ⟨⟨n0, p0⟩, hmem0, heq⟩ := List.mem_map.mp hmem
        by_cases hp0 : p0.enabled
        · simp only [hp0, if_true] at heq
          injection heq with he1 he2
          subst he1
          exact hasDir_mkdir_mono L.1 (dir ++ n0) dir
            (installLoop_installs ck dir hck reg fs0 n0 p0 hmem0 hp0)
        · simp only [hp0] at heq
          injection heq with he1 he2
          subst he1
          subst he2
          exact absurd hq hp0
      have := installLoop_skips ck dir L.2.1 (L.1.mkdir dir) hall
      simpa [install_plugins] using this
    refine ⟨rfl, hops2, ?_, ?_, ?_⟩
    · simp [install_plugins]
    · intro n hn
      have h0 : fs0.hasDir (dir ++ n) = true := hasDir_mkdir_mono fs (dir ++ n) dir hn
      simpa [hcall1] using installLoop_not_cloned ck dir reg fs0 n h0
    · intro reg2 n p hpl hnd hmem hp hmiss
      have hreg : reg2 = reg := by
        simpa using hpl.symm
      subst hreg
      have hmem1 : n ∈ L.2.2 :=
        installLoop_cloned_mem ck dir reg2 fs0 n p hmem hp hnd hmiss
      have hnd1 : L.2.2.Nodup :=
        (installLoop_ops_sublist ck dir reg2 fs0).nodup (by simpa using hnd)
      simpa [hcall1] using List.count_eq_one_of_mem hnd1 hmem1

theorem install_plugins_idempotent_witness :
    ((fun _ : String => true) "foo" = true) ∧
    (install_plugins true (fun _ => true) "/data"
        (⟨none, none, some [("foo", ⟨"https://example/foo.git", true, none, none⟩)]⟩ :
          PmanState) ⟨[]⟩).2.2.1 = ["foo"] ∧
    (install_plugins true (fun _ => true) "/data"
        (install_plugins true (fun _ => true) "/data"
          (⟨none, none, some [("foo", ⟨"https://example/foo.git", true, none, none⟩)]⟩ :
            PmanState) ⟨[]⟩).1
        (install_plugins true (fun _ => true) "/data"
          (⟨none, none, some [("foo", ⟨"https://example/foo.git", true, none, none⟩)]⟩ :
            PmanState) ⟨[]⟩).2.1).2.2.1 = [] ∧
    (install_plugins true (fun _ => true) "/data"
        (⟨none, none, some [("foo", ⟨"https://example/foo.git", true, none, none⟩)]⟩ :
          PmanState) ⟨[]⟩).2.2.1.count "foo" = 1 := by
  have h := install_plugins_idempotent (fun _ => true) "/data"
    ⟨none, none, some [("foo", ⟨"https://example/foo.git", true, none, none⟩)]⟩
    ⟨[]⟩ (fun _ => rfl)
  refine ⟨rfl, by decide, h.2.1, ?_⟩
  exact h.2.2.2.2 [("foo", ⟨"https://example/foo.git", true, none, none⟩)] "foo"
    ⟨"https://example/foo.git", true, none, none⟩ rfl (by decide) (by decide) rfl (by decide)

/-- C1 amended: for an enabled plugin with a stored config, a successful
first attempt schedules nothing and warns nothing; a failed first
attempt schedules exactly one deferred retry and surfaces no immediate
error; if the retry performs both steps successfully no warning is
emitted; exactly one warning naming the plugin is emitted when the retry
reaches and fails the config-execution step; but when the retry fails at
the module-load or parse step the failure is swallowed silently and no
warning is emitted (the retry closure only raises on a chunk error). -/
theorem apply_schedules_one_retry (env : ApplyEnv) (n cfg : String)
    (p : PluginRec) (st : PmanState) (hen : p.enabled = true)
    (hcfg : p.config = some cfg) :
    (firstAttemptOk env n cfg = true → applyPlugin env n p = (0, [])) ∧
    (firstAttemptOk env n cfg = false → (applyPlugin env n p).1 = 1) ∧
    (firstAttemptOk env n cfg = false → env.requireOk2 n = true →
      env.parseOk cfg = true → env.chunkOk2 n = true → (applyPlugin env n p).2 = []) ∧
    (firstAttemptOk env n cfg = false → env.requireOk2 n = true →
      env.parseOk cfg = true → env.chunkOk2 n = false → (applyPlugin env n p).2 = [n]) ∧
    (firstAttemptOk env n cfg = false →
      (env.requireOk2 n = false ∨ env.parseOk cfg = false) →
      (applyPlugin env n p).2 = []) ∧
    (st.plugins = some [(n, p)] →
      load_plugin_configs true env st =
        ((applyPlugin env n p).1, (applyPlugin env n p).2, 1)) := by
  refine ⟨?_, ?_, ?_, ?_, ?_, ?_⟩
  · intro hf
    simp [applyPlugin, hcfg, hen, hf]
  · intro hf
    simp [applyPlugin, hcfg, hen, hf]
  · intro hf hr hp hc
    simp [applyPlugin, hcfg, hen, hf, retryRaises, hr, hp, hc]
  · intro hf hr hp hc
    simp [applyPlugin, hcfg, hen, hf, retryRaises, hr, hp, hc]
  · intro hf hor
    rcases hor with hr | hp
    · simp [applyPlugin, hcfg, hen, hf, retryRaises, hr]
    · simp [applyPlugin, hcfg, hen, hf, retryRaises, hp]
  · intro hpl
    obtain ⟨cp, pc, pl⟩ := st
    simp only [] at hpl
    subst hpl
    simp [load_plugin_configs, applyAllLoop]

theorem apply_schedules_one_retry_witness :
    ((⟨"u", true, some "x", none⟩ : PluginRec).enabled = true) ∧
    ((⟨"u", true, some "x", none⟩ : PluginRec).config = some "x") ∧
    firstAttemptOk
      ⟨fun _ => false, fun _ => true, fun _ => true, fun _ => true, fun _ => false⟩
      "foo" "x" = false ∧
    (applyPlugin
      ⟨fun _ => false, fun _ => true, fun _ => true, fun _ => true, fun _ => false⟩
      "foo" ⟨"u", true, some "x", none⟩).2 = ["foo"] ∧
    load_plugin_configs true
      ⟨fun _ => false, fun _ => true, fun _ => true, fun _ => true, fun _ => false⟩
      (⟨none, none, some [("foo", ⟨"u", true, some "x", none⟩)]⟩ : PmanState) =
      (1, ["foo"], 1) := by
  have h := apply_schedules_one_retry
    ⟨fun _ => false, fun _ => true, fun _ => true, fun _ => true, fun _ => false⟩
    "foo" "x" ⟨"u", true, some "x", none⟩
    ⟨none, none, some [("foo", ⟨"u", true, some "x", none⟩)]⟩ rfl rfl
  refine ⟨rfl, rfl, rfl, h.2.2.2.1 rfl rfl rfl rfl, ?_⟩
  rw [h.2.2.2.2.2 rfl]
  rfl

/-- C1 counterexample: with a plugin whose module never becomes loadable,
the first attempt fails and the deferred retry is scheduled; the retry
then also fails its module-load step, yet no warning is emitted — the
warning list is empty where the claim requires exactly one warning
naming the plugin. -/
theorem apply_retry_failure_without_warning :
    firstAttemptOk
      ⟨fun _ => false, fun _ => false, fun _ => true, fun _ => true, fun _ => true⟩
      "foo" "x" = false ∧
    ApplyEnv.requireOk2
      ⟨fun _ => false, fun _ => false, fun _ => true, fun _ => true, fun _ => true⟩
      "foo" = false ∧
    load_plugin_configs true
      ⟨fun _ => false, fun _ => false, fun _ => true, fun _ => true, fun _ => true⟩
      (⟨none, none, some [("foo", ⟨"u", true, some "x", none⟩)]⟩ : PmanState) =
      (1, [], 1) :=
  ⟨rfl, rfl, rfl⟩
